import Mathlib

/-!
# Verification of the Minecraft-Artifact-Builder container orchestration engine

A shallow embedding of the container-engine protocol client
(`src/podman/PodmanApi.ts`), the container orchestrator
(`src/artifactBuilder/env/PodmanEnvironment.ts`) and the build scheduler
(`src/main.ts`, `buildAllVersionsOfSomething`), together with theorems
settling the specification claims about them.

Conventions of the embedding:
* byte buffers (`Buffer`) are `List Nat`, each element a byte value;
* JavaScript `TypedArray.subarray` index clamping is modelled by `jsIdx` /
  `jsSubarray`;
* the signed 32-bit shift/or arithmetic used to decode frame lengths is
  modelled by `toInt32`;
* `async` functions become pure functions with explicit state passing; a
  thrown exception becomes `Except.error` carrying the message string;
* the engine on the other side of the Unix socket is an oracle: each
  modelled operation takes the response (status code, headers, body) or, for
  the orchestrator, a record of call outcomes, as an explicit argument.
-/

namespace MinecraftArtifactBuilder

/-- JavaScript `TypedArray.subarray` index resolution: a negative index is
relative to the end (clamped below at `0`), a non-negative one is clamped
above at the length. -/
def jsIdx (len : Nat) (i : Int) : Nat :=
  if i < 0 then ((len : Int) + i).toNat else min i.toNat len

/-- `buf.subarray(s, e)` of Node's `Buffer` (TypedArray semantics): resolve
both indices with `jsIdx`; when the start is at or past the end the result
is empty. -/
def jsSubarray (b : List Nat) (s e : Int) : List Nat :=
  (b.take (jsIdx b.length e)).drop (jsIdx b.length s)

/-- JavaScript `ToInt32`: reduce modulo `2^32` and re-interpret as a signed
32-bit value. `a << 24 | b << 16 | c << 8 | d` on byte values equals
`toInt32 (a*2^24 + b*2^16 + c*2^8 + d)` because the four byte fields occupy
disjoint bit ranges. -/
def toInt32 (n : Nat) : Int :=
  if n % 2 ^ 32 < 2 ^ 31 then ((n % 2 ^ 32 : Nat) : Int)
  else ((n % 2 ^ 32 : Nat) : Int) - 2 ^ 32

/-- The frame size computed by `getContainerLogs` from a frame header:
`headerBytes[4] << 24 | headerBytes[5] << 16 | headerBytes[6] << 8 |
headerBytes[7]`; an out-of-range access yields `undefined`, which the shift
coerces to `0`, hence `List.getD _ 0`. -/
def frameSizeOf (headerBytes : List Nat) : Int :=
  toInt32 (headerBytes.getD 4 0 * 2 ^ 24 + headerBytes.getD 5 0 * 2 ^ 16 +
    headerBytes.getD 6 0 * 2 ^ 8 + headerBytes.getD 7 0)

/-- Bytes of the `'\n[stdout] '` marker. -/
def stdoutMarker : List Nat := [10, 91, 115, 116, 100, 111, 117, 116, 93, 32]

/-- Bytes of the `'\n[stderr] '` marker. -/
def stderrMarker : List Nat := [10, 91, 115, 116, 100, 101, 114, 114, 93, 32]

/-- The mutable state of the `while` loop inside `getContainerLogs`:
the unconsumed bytes, the accumulated output (as bytes) and
`lastAppendedStreamType` (initially `-1`). -/
structure DecodeState where
  leftBytes : List Nat
  result : List Nat
  lastType : Int
deriving Repr, DecidableEq

/-- One iteration of the `getContainerLogs` frame loop (the loop body runs
only when `leftBytes` is non-empty). Mirrors
`src/podman/PodmanApi.ts:218-236`: slice an 8-byte header, compute the
signed frame size, slice the payload, advance `leftBytes`, then append a
marker at a stream-type transition (failing on an unknown type) and append
the payload. -/
def decodeStep (s : DecodeState) : Except String DecodeState :=
  let headerBytes := jsSubarray s.leftBytes 0 8
  let streamType : Int := (headerBytes.getD 0 0 : Nat)
  let frameSize := frameSizeOf headerBytes
  let payloadBytes := jsSubarray s.leftBytes 8 (8 + frameSize)
  let leftBytes := jsSubarray s.leftBytes (8 + frameSize) s.leftBytes.length
  if streamType ≠ s.lastType then
    if streamType = 1 then
      .ok ⟨leftBytes, s.result ++ stdoutMarker ++ payloadBytes, streamType⟩
    else if streamType = 2 then
      .ok ⟨leftBytes, s.result ++ stderrMarker ++ payloadBytes, streamType⟩
    else
      .error ("Encountered unknown stream type: " ++ toString streamType)
  else
    .ok ⟨leftBytes, s.result ++ payloadBytes, streamType⟩

/-- The `while (leftBytes.length > 0)` loop, with explicit fuel. The source
loop has no bound of its own; `none` means the fuel ran out, i.e. within
that many iterations the loop neither finished nor threw. -/
def decodeLoop : Nat → DecodeState → Option (Except String (List Nat))
  | 0, s => if s.leftBytes = [] then some (.ok s.result) else none
  | fuel + 1, s =>
    if s.leftBytes = [] then some (.ok s.result)
    else
      match decodeStep s with
      | .error e => some (.error e)
      | .ok s' => decodeLoop fuel s'

/-- The initial loop state for a response body. -/
def initState (body : List Nat) : DecodeState := ⟨body, [], -1⟩

/-- The whole decoding phase of `getContainerLogs` on a response body.
`body.length + 1` fuel is enough for every terminating run: an iteration
that does not shrink `leftBytes` repeats forever (the loop guard and body
depend on nothing else), so a run that terminates shrinks the buffer every
iteration. -/
def decodeLogs (body : List Nat) : Option (Except String (List Nat)) :=
  decodeLoop (body.length + 1) (initState body)

/-- A multiplexed log frame as described by the protocol: a stream-type byte
and a payload. -/
structure Frame where
  streamType : Nat
  payload : List Nat
deriving Repr, DecidableEq

/-- The wire encoding of one frame: 8-byte header (stream-type byte, three
reserved zero bytes, 4-byte big-endian payload length) followed by the
payload. -/
def encodeFrame (f : Frame) : List Nat :=
  [f.streamType, 0, 0, 0,
   f.payload.length / 2 ^ 24 % 256, f.payload.length / 2 ^ 16 % 256,
   f.payload.length / 2 ^ 8 % 256, f.payload.length % 256] ++ f.payload

/-- The wire encoding of a frame sequence. -/
def encodeFrames (fs : List Frame) : List Nat := (fs.map encodeFrame).flatten

/-- A well-formed frame has stream type 1 (stdout) or 2 (stderr) and a
payload whose length fits a signed 32-bit value. -/
def WellFormedFrame (f : Frame) : Prop :=
  (f.streamType = 1 ∨ f.streamType = 2) ∧ f.payload.length < 2 ^ 31

instance (f : Frame) : Decidable (WellFormedFrame f) := by
  unfold WellFormedFrame; infer_instance

/-- The marker bytes for a stream type (defined for types 1 and 2). -/
def markerFor (t : Nat) : List Nat := if t = 1 then stdoutMarker else stderrMarker

/-- The output the decoder should produce for a frame sequence, given the
stream type of the previously appended frame (`-1` initially): payloads
concatenated in order, a marker inserted exactly at each stream-type
transition. -/
def renderFrames (last : Int) : List Frame → List Nat
  | [] => []
  | f :: fs =>
    (if (f.streamType : Int) ≠ last then markerFor f.streamType else []) ++
      f.payload ++ renderFrames (f.streamType : Int) fs

/-- Rendering of a byte list as the string `Buffer.toString` produces, for
bytes that are ASCII (the only ones the modelled error messages ever
render). -/
def bytesToString (l : List Nat) : String := String.mk (l.map Char.ofNat)

/-- `needle` occurs as a contiguous substring of `hay` (the property JS
`String.prototype.includes` decides). -/
def strIncludes (needle hay : String) : Prop := needle.data <:+: hay.data

instance (n h : String) : Decidable (strIncludes n h) := by
  unfold strIncludes; infer_instance

/-- A container-engine HTTP response as `getContainerLogs` sees it: status
code, the optional `content-type` header, and the raw body bytes. -/
structure LogsResponse where
  statusCode : Nat
  contentType : Option String
  body : List Nat
deriving Repr, DecidableEq

/-- `getContainerLogs` (`src/podman/PodmanApi.ts:205-239`) after the
transport returned `resp`: reject a non-200 status (error embeds the body),
reject a present `content-type` header that is not
`application/octet-stream` (the error embeds the content type and the
container id, not the body), then run the frame-decoding loop. `none` means
the decode loop diverged. -/
def getContainerLogsOp (idOrName : String) (resp : LogsResponse) :
    Option (Except String (List Nat)) :=
  if resp.statusCode ≠ 200 then
    some (.error ("Unexpected http status " ++ toString resp.statusCode ++
      " while waiting on container: " ++ bytesToString resp.body))
  else if resp.contentType ≠ none ∧ resp.contentType ≠ some "application/octet-stream" then
    some (.error ("Unexpected Content-Type for container log stream: contentType=" ++
      (resp.contentType.getD "") ++ ", idOrName=" ++ idOrName))
  else
    decodeLogs resp.body

/-- A JSON value, as far as the protocol client inspects one: the client
only ever asks "is it an array?" and "is field `k` a string?". -/
inductive Json
  | null
  | bool (b : Bool)
  | num (n : Int)
  | str (s : String)
  | arr (elems : List Json)
  | obj (fields : List (String × Json))

/-- `Array.isArray` on a parsed JSON value. -/
def Json.isArray : Json → Bool
  | .arr _ => true
  | _ => false

/-- JavaScript property access `value[k]` on a parsed JSON value:
a string result or `undefined`/non-string (`none`). This is exactly the
`typeof x === 'string'` test the client performs on the accessed field. -/
def Json.strField (j : Json) (k : String) : Option String :=
  match j with
  | .obj fields =>
    match fields.lookup k with
    | some (.str s) => some s
    | _ => none
  | _ => none

/-- A response as the protocol-client validators see it: the status code,
the body rendered as text (`response.body.toString()`), and the body parsed
as JSON. The validators below are only ever applied to responses whose
body parses (`JSON.parse` throwing is a failure of the JS runtime's own
making, outside these validators). -/
structure ApiResponse where
  statusCode : Nat
  bodyText : String
  bodyJson : Json

/-- Response validation of `listContainers`
(`src/podman/PodmanApi.ts:126-137`): expect status 200 and an array body;
both error messages embed the raw body text. -/
def listContainersValidate (r : ApiResponse) : Except String (List Json) :=
  if r.statusCode ≠ 200 then
    .error ("Unexpected http status '" ++ toString r.statusCode ++
      "' after container list: " ++ r.bodyText)
  else
    match r.bodyJson with
    | .arr elems => .ok elems
    | _ => .error ("Expected container list to return an array: " ++ r.bodyText)

/-- Response validation of `deleteContainer`
(`src/podman/PodmanApi.ts:139-158`): expect status 200 (the message says
"after container creation", copied in the source) and an array body. -/
def deleteContainerValidate (r : ApiResponse) : Except String (List Json) :=
  if r.statusCode ≠ 200 then
    .error ("Unexpected http status '" ++ toString r.statusCode ++
      "' after container creation: " ++ r.bodyText)
  else
    match r.bodyJson with
    | .arr elems => .ok elems
    | _ => .error ("Expected deleted containers to be an array: " ++ r.bodyText)

/-- Response validation of `createContainer`
(`src/podman/PodmanApi.ts:160-171`): expect status 201 and a string `Id`
field. -/
def createContainerValidate (r : ApiResponse) : Except String String :=
  if r.statusCode ≠ 201 then
    .error ("Unexpected http status '" ++ toString r.statusCode ++
      "' after container creation: " ++ r.bodyText)
  else
    match r.bodyJson.strField "Id" with
    | some containerId => .ok containerId
    | none => .error ("Missing container id after podman create: " ++ r.bodyText)

/-- Response validation of `startContainer`
(`src/podman/PodmanApi.ts:173-178`): expect status 204; no body parsing. -/
def startContainerValidate (r : ApiResponse) : Except String Unit :=
  if r.statusCode ≠ 204 then
    .error ("Unexpected http status '" ++ toString r.statusCode ++
      "' when starting container: " ++ r.bodyText)
  else
    .ok ()

/-- Response validation of `waitOnContainer`
(`src/podman/PodmanApi.ts:180-187`): expect status 200; the body is then
handed to `parseInt` (which never throws). -/
def waitOnContainerValidate (r : ApiResponse) : Except String Unit :=
  if r.statusCode ≠ 200 then
    .error ("Unexpected http status " ++ toString r.statusCode ++
      " while waiting on container: " ++ r.bodyText)
  else
    .ok ()

/-- Response validation of `deleteStoppedContainers`
(`src/podman/PodmanApi.ts:189-203`): expect status 200 (the message again
says "after container creation") and an array body. -/
def deleteStoppedContainersValidate (r : ApiResponse) : Except String (List Json) :=
  if r.statusCode ≠ 200 then
    .error ("Unexpected http status '" ++ toString r.statusCode ++
      "' after container creation: " ++ r.bodyText)
  else
    match r.bodyJson with
    | .arr elems => .ok elems
    | _ => .error ("Expected deleted containers to be an array: " ++ r.bodyText)

/-- Status validation of `getContainerLogs`
(`src/podman/PodmanApi.ts:207-209`), shared wording with
`waitOnContainer`. The content-type and stream-type checks are in
`getContainerLogsOp`. -/
def getContainerLogsStatusValidate (r : ApiResponse) : Except String Unit :=
  if r.statusCode ≠ 200 then
    .error ("Unexpected http status " ++ toString r.statusCode ++
      " while waiting on container: " ++ r.bodyText)
  else
    .ok ()

/-- Response validation of `pullImage`
(`src/podman/PodmanApi.ts:241-252`): expect status 200 and a string `id`
field. -/
def pullImageValidate (r : ApiResponse) : Except String String :=
  if r.statusCode ≠ 200 then
    .error ("Unexpected http status '" ++ toString r.statusCode ++
      "' after podman pull: " ++ r.bodyText)
  else
    match r.bodyJson.strField "id" with
    | some imageId => .ok imageId
    | none => .error ("Missing image id after podman pull: " ++ r.bodyText)

/-- Response validation of `buildImage`
(`src/podman/PodmanApi.ts:254-265`): on a non-200 status the thrown error
is only `"Unexpected status code <n>"` — the raw body is NOT embedded; the
missing-`stream`-field error does embed it. -/
def buildImageValidate (r : ApiResponse) : Except String String :=
  if r.statusCode ≠ 200 then
    .error ("Unexpected status code " ++ toString r.statusCode)
  else
    match r.bodyJson.strField "stream" with
    | some imageId => .ok imageId
    | none => .error ("Missing image id after podman build: " ++ r.bodyText)

/-- Response validation of `ping` (`src/podman/PodmanApi.ts:267-280`): on a
non-200 status the thrown error is only `"Unexpected status code <n>"` —
the raw body is NOT embedded; the result is read from headers and the body
is never validated. -/
def pingValidate (r : ApiResponse) : Except String Unit :=
  if r.statusCode ≠ 200 then
    .error ("Unexpected status code " ++ toString r.statusCode)
  else
    .ok ()

/-! ## Build scheduler (`buildAllVersionsOfSomething`, `src/main.ts`)

The tri-state "already built" answer `boolean | null` of
`ArtifactBuilder.artifactAlreadyInOutputDirBulk` is `Option Bool`
(`none` = cannot be determined). The loop walks the version list by index
and skips exactly the entries whose tri-state is strictly `true`
(`alreadyBuiltVersions[i] === true`); an index beyond the tri-state list
reads `undefined` in JS, modelled by `List.getD _ none`. -/

/-- The versions the scheduler loop iterates over: the known versions with
the literal `"latest"` filtered out (`src/main.ts`,
`buildAllVersionsOfSomething`). -/
def schedulerVersions (knownVersions : List String) : List String :=
  knownVersions.filter (fun version => version ≠ "latest")

/-- The versions submitted as build tasks: exactly those whose parallel
tri-state entry is not strictly `true`, in list order. -/
def toBuildVersions (versions : List String) (alreadyBuilt : List (Option Bool)) :
    List String :=
  (List.range versions.length).filterMap fun i =>
    if alreadyBuilt.getD i none = some true then none else versions.get? i

/-- The skip count the scheduler logs
(`numberOfAlreadyBuiltVersions`): the number of indices whose tri-state
entry is strictly `true`. -/
def skippedVersionCount (versions : List String) (alreadyBuilt : List (Option Bool)) :
    Nat :=
  ((List.range versions.length).filter
    (fun i => alreadyBuilt.getD i none = some true)).length

/-! ## Container orchestrator (`PodmanEnvironment`)

`runBuilderInOwnContainer` and `abortRunningBuilders` are embedded as pure
functions over an engine oracle: a record giving the outcome of each API
call the method makes. Each run produces the result (success or the thrown
error), the final `runningContainerIds` list, and the ordered trace of
events (API calls made and mutations of the running list). -/

/-- The outcome of each engine call a single `runBuilderInOwnContainer` run
can make. `deleteContainer` takes the `force` and `ignore` flags the
orchestrator passes. -/
structure EngineBehavior where
  createContainer : Except String String
  startContainer : Except String Unit
  waitOnContainer : Except String Int
  getContainerLogs : Except String String
  deleteContainer : Bool → Bool → Except String Unit

/-- An observable event of an orchestrator run, in program order. -/
inductive RunEvent
  | apiCreateContainer
  | addRunning (id : String)
  | apiStartContainer (id : String)
  | apiWaitOnContainer (id : String)
  | apiGetContainerLogs (id : String)
  | logSecondaryError (message : String)
  | apiDeleteContainer (id : String) (force : Bool) (ignore : Bool)
  | removeRunning (id : String)
deriving Repr, DecidableEq

/-- JS `String.prototype.split` with a single-character separator, on the
character list of the string: splitting the empty list yields one empty
group, and each separator occurrence starts a new group. -/
def splitChar (c : Char) : List Char → List (List Char)
  | [] => [[]]
  | x :: xs =>
    match splitChar c xs with
    | [] => [[]]
    | g :: gs => if x = c then [] :: g :: gs else (x :: g) :: gs

/-- JS `containerLogs.split('\n').slice(-250).join('\n')` (with `n = 250`):
keep the last `n` newline-separated lines. -/
def lastLines (n : Nat) (s : String) : String :=
  let parts := splitChar (Char.ofNat 10) s.data
  String.mk (List.intercalate [Char.ofNat 10] (parts.drop (parts.length - n)))

/-- The log tail the failure path captures: the last 250 lines when the
fetch succeeded, the empty string when it threw (the `catch` leaves
`containerLogs` at its initial `''`). -/
def capturedLogTail (fetchResult : Except String String) : String :=
  match fetchResult with
  | .ok logs => lastLines 250 logs
  | .error _ => ""

/-- JS `Array.prototype.indexOf`: the index of the first occurrence of
`x`, or `-1`. -/
def jsIndexOf (l : List String) (x : String) : Int :=
  match l with
  | [] => -1
  | a :: t =>
    if a = x then 0
    else if jsIndexOf t x = -1 then -1 else jsIndexOf t x + 1

/-- JS `arr.splice(arr.indexOf(x), 1)`: remove the first occurrence of `x`;
when `x` is absent, `indexOf` is `-1` and `splice(-1, 1)` removes the LAST
element instead. -/
def jsSpliceIndexOf (l : List String) (x : String) : List String :=
  let i := jsIndexOf l x
  if i < 0 then l.dropLast else l.eraseIdx i.toNat

/-- The result of one orchestrator run: outcome, final
`runningContainerIds`, event trace. -/
structure RunResult where
  outcome : Except String Unit
  running : List String
  events : List RunEvent
deriving Repr

/-- `runBuilderInOwnContainer` from the point where `startContainer`
returned successfully (`src/artifactBuilder/env/PodmanEnvironment.ts:57-74`):
wait for the exit code; on a non-zero code fetch the logs best-effort
(suppress a fetch error containing `'no such container'`, log any other),
truncate to the last 250 lines, delete with `force=false, ignore=true`, and
throw an error with the exit code and captured tail (the running list is
left untouched); on exit code zero delete with both flags false and remove
the id from the running list. `running1` is the running list after the
`push`, `b` the engine oracle, `cid` the container id. -/
def runAfterStart (b : EngineBehavior) (running1 : List String) (cid : String) :
    RunResult :=
  match b.waitOnContainer with
  | .error e => ⟨.error e, running1, [.apiWaitOnContainer cid]⟩
  | .ok exitCode =>
    if exitCode ≠ 0 then
      let fetched : String × List RunEvent :=
        match b.getContainerLogs with
        | .ok logs => (lastLines 250 logs, [.apiGetContainerLogs cid])
        | .error e =>
          if strIncludes "no such container" e then ("", [.apiGetContainerLogs cid])
          else ("", [.apiGetContainerLogs cid, .logSecondaryError e])
      match b.deleteContainer false true with
      | .error e =>
        ⟨.error e, running1,
          .apiWaitOnContainer cid :: fetched.2 ++ [.apiDeleteContainer cid false true]⟩
      | .ok _ =>
        ⟨.error ("Container exited with exit code " ++ toString exitCode ++
            (if fetched.1 = "" then "" else ": " ++ fetched.1)),
          running1,
          .apiWaitOnContainer cid :: fetched.2 ++ [.apiDeleteContainer cid false true]⟩
    else
      match b.deleteContainer false false with
      | .error e =>
        ⟨.error e, running1,
          [.apiWaitOnContainer cid, .apiDeleteContainer cid false false]⟩
      | .ok _ =>
        ⟨.ok (), jsSpliceIndexOf running1 cid,
          [.apiWaitOnContainer cid, .apiDeleteContainer cid false false,
            .removeRunning cid]⟩

/-- `runBuilderInOwnContainer`
(`src/artifactBuilder/env/PodmanEnvironment.ts:12-75`) over the engine
oracle `b`, starting from the running list `running`: create the container,
push its id onto the running list, start it, then continue with
`runAfterStart`. Any API error propagates (the JS `await` rethrows). -/
def runBuilderInOwnContainer (b : EngineBehavior) (running : List String) :
    RunResult :=
  match b.createContainer with
  | .error e => ⟨.error e, running, [.apiCreateContainer]⟩
  | .ok cid =>
    let running1 := running ++ [cid]
    match b.startContainer with
    | .error e =>
      ⟨.error e, running1,
        [.apiCreateContainer, .addRunning cid, .apiStartContainer cid]⟩
    | .ok _ =>
      let rest := runAfterStart b running1 cid
      ⟨rest.outcome, rest.running,
        [.apiCreateContainer, .addRunning cid, .apiStartContainer cid] ++ rest.events⟩

/-- `abortRunningBuilders`
(`src/artifactBuilder/env/PodmanEnvironment.ts:77-83`): one
`deleteContainer(id, true, true)` promise per id in the running list — all
created before any is awaited, so the call list never depends on the
results — then `Promise.all`. `deleteResult id force ignore` is the engine
oracle for each deletion. Returns the issued calls
(id, force, ignore) in order and the awaited outcome. -/
def abortRunningBuilders (deleteResult : String → Bool → Bool → Except String Unit)
    (running : List String) :
    List (String × Bool × Bool) × Except String Unit :=
  let calls := running.map (fun id => (id, true, true))
  let outcome := running.foldr
    (fun id acc =>
      match deleteResult id true true with
      | .error e => .error e
      | .ok _ => acc)
    (.ok ())
  (calls, outcome)

/-- The engine's deletion semantics for the flags the orchestrator uses, as
§4.2 of the specification describes them: deleting a missing container
fails with a `no such container` error unless the `ignore` flag is set;
deleting an existing container succeeds (force only matters for running
containers, which deletion then stops first). `missing id = true` means the
container no longer exists. -/
def engineDelete (missing : String → Bool) (id : String) (_force ignore : Bool) :
    Except String Unit :=
  if missing id && !ignore then .error ("no such container: " ++ id) else .ok ()

/-- The loop invariant of the demultiplexer: `lastAppendedStreamType` is
`-1` (nothing appended yet), `1` or `2`. -/
def ValidLastType (s : DecodeState) : Prop :=
  s.lastType = -1 ∨ s.lastType = 1 ∨ s.lastType = 2

/-- The 8-byte log body whose declared payload length `0x80000000` turns
negative under the signed 32-bit shift arithmetic: stream type 1,
reserved zeros, big-endian length bytes `80 00 00 00`. -/
def negativeSizeFrame : List Nat := [1, 0, 0, 0, 128, 0, 0, 0]

/-- A concrete engine behavior: creation yields container `"c1"`, the
start succeeds, the container exits with code 7, the log fetch fails with
the engine's `no such container` error, and every deletion succeeds. -/
def exit7Behavior : EngineBehavior :=
  ⟨.ok "c1", .ok (), .ok 7, .error "no such container: c1", fun _ _ => .ok ()⟩

theorem jsIdx_ofNat (len : Nat) (n : Nat) : jsIdx len (n : Int) = min n len := by
  simp [jsIdx]

theorem jsSubarray_ofNat (b : List Nat) (s e : Nat) :
    jsSubarray b (s : Int) (e : Int) =
      (b.take (min e b.length)).drop (min s b.length) := by
  simp [jsSubarray, jsIdx_ofNat]

theorem byte_decomp (n : Nat) (h : n < 2 ^ 31) :
    toInt32 (n / 2 ^ 24 % 256 * 2 ^ 24 + n / 2 ^ 16 % 256 * 2 ^ 16 +
      n / 2 ^ 8 % 256 * 2 ^ 8 + n % 256) = (n : Int) := by
  have hsum : n / 2 ^ 24 % 256 * 2 ^ 24 + n / 2 ^ 16 % 256 * 2 ^ 16 +
      n / 2 ^ 8 % 256 * 2 ^ 8 + n % 256 = n := by omega
  rw [hsum, toInt32]
  have : n % 2 ^ 32 = n := Nat.mod_eq_of_lt (by omega)
  simp [this]
  omega

theorem jsSubarray_header (hdr x : List Nat) (h : hdr.length = 8) :
    jsSubarray (hdr ++ x) 0 8 = hdr := by
  have h0 : ((0 : Int)) = ((0 : Nat) : Int) := by norm_num
  have h8 : ((8 : Int)) = ((8 : Nat) : Int) := by norm_num
  rw [h0, h8, jsSubarray_ofNat]
  have hmin8 : min 8 (hdr ++ x).length = 8 := by rw [List.length_append, h]; omega
  have hmin0 : min 0 (hdr ++ x).length = 0 := by omega
  rw [hmin8, hmin0, List.drop_zero, ← h, List.take_left]

theorem jsSubarray_payload (hdr x rest : List Nat) (h : hdr.length = 8) :
    jsSubarray (hdr ++ (x ++ rest)) 8 (8 + (x.length : Int)) = x := by
  have h8 : ((8 : Int)) = ((8 : Nat) : Int) := by norm_num
  have he : (8 : Int) + (x.length : Int) = ((8 + x.length : Nat) : Int) := by push_cast; ring
  rw [he, h8, jsSubarray_ofNat]
  have hminE : min (8 + x.length) (hdr ++ (x ++ rest)).length = 8 + x.length := by
    rw [List.length_append, List.length_append, h]; omega
  have hminS : min 8 (hdr ++ (x ++ rest)).length = 8 := by
    rw [List.length_append, List.length_append, h]; omega
  rw [hminE, hminS]
  rw [show 8 + x.length = hdr.length + x.length by rw [h]]
  rw [List.take_append, List.take_left, ← h, List.drop_left]

theorem jsSubarray_rest (hdr x rest : List Nat) (h : hdr.length = 8) :
    jsSubarray (hdr ++ (x ++ rest)) (8 + (x.length : Int))
      ((hdr ++ (x ++ rest)).length : Int) = rest := by
  have he : (8 : Int) + (x.length : Int) = ((8 + x.length : Nat) : Int) := by push_cast; ring
  rw [he, jsSubarray_ofNat]
  have hminL : min (hdr ++ (x ++ rest)).length (hdr ++ (x ++ rest)).length =
      (hdr ++ (x ++ rest)).length := by simp
  rw [hminL, List.take_length]
  have hminS : min (8 + x.length) (hdr ++ (x ++ rest)).length = 8 + x.length := by
    rw [List.length_append, List.length_append, h]; omega
  rw [hminS, show 8 + x.length = hdr.length + x.length by rw [h], List.drop_append,
    List.drop_left]

theorem decodeStep_encodeFrame (f : Frame) (rest acc : List Nat) (last : Int)
    (hwf : WellFormedFrame f) :
    decodeStep ⟨encodeFrame f ++ rest, acc, last⟩ =
      .ok ⟨rest,
        acc ++ (if (f.streamType : Int) ≠ last then markerFor f.streamType else []) ++
          f.payload,
        (f.streamType : Int)⟩ := by
  obtain ⟨htype, hlenlt⟩ := hwf
  have hbuf : encodeFrame f ++ rest =
      [f.streamType, 0, 0, 0, f.payload.length / 2 ^ 24 % 256,
        f.payload.length / 2 ^ 16 % 256, f.payload.length / 2 ^ 8 % 256,
        f.payload.length % 256] ++ (f.payload ++ rest) := by
    simp [encodeFrame]
  have hh8 : ([f.streamType, 0, 0, 0, f.payload.length / 2 ^ 24 % 256,
      f.payload.length / 2 ^ 16 % 256, f.payload.length / 2 ^ 8 % 256,
      f.payload.length % 256] : List Nat).length = 8 := by simp
  have hheader := jsSubarray_header _ (f.payload ++ rest) hh8
  have hfsize : frameSizeOf [f.streamType, 0, 0, 0, f.payload.length / 2 ^ 24 % 256,
      f.payload.length / 2 ^ 16 % 256, f.payload.length / 2 ^ 8 % 256,
      f.payload.length % 256] = (f.payload.length : Int) := by
    rw [frameSizeOf]
    simp only [List.getD, List.get?_cons_succ, List.get?_cons_zero, Option.getD_some]
    exact byte_decomp f.payload.length hlenlt
  have hpayload := jsSubarray_payload _ f.payload rest hh8
  have hrest := jsSubarray_rest _ f.payload rest hh8
  simp only [decodeStep, hbuf, hheader, hfsize, hpayload, hrest]
  simp only [List.getD, List.get?_cons_zero, Option.getD_some]
  by_cases hne : (f.streamType : Int) = last
  · simp [hne]
  · rcases htype with h1 | h2
    · have hne1 : ¬((1 : Int) = last) := by rw [h1] at hne; exact_mod_cast hne
      simp [h1, markerFor, hne1]
    · have hne2 : ¬((2 : Int) = last) := by rw [h2] at hne; exact_mod_cast hne
      simp [h2, markerFor, hne2]

theorem encodeFrames_cons (f : Frame) (fs : List Frame) :
    encodeFrames (f :: fs) = encodeFrame f ++ encodeFrames fs := by
  simp [encodeFrames]

theorem decodeLoop_encodeFrames (fs : List Frame) :
    ∀ (fuel : Nat) (acc : List Nat) (last : Int),
      (∀ f ∈ fs, WellFormedFrame f) → fs.length ≤ fuel →
      decodeLoop fuel ⟨encodeFrames fs, acc, last⟩ =
        some (.ok (acc ++ renderFrames last fs)) := by
  induction fs with
  | nil =>
    intro fuel acc last _ _
    cases fuel <;> simp [decodeLoop, encodeFrames, renderFrames]
  | cons f fs ih =>
    intro fuel acc last hwf hfuel
    obtain ⟨fuel, rfl⟩ : ∃ k, fuel = k + 1 := ⟨fuel - 1, by simp at hfuel; omega⟩
    rw [encodeFrames_cons, decodeLoop]
    have hne : encodeFrame f ++ encodeFrames fs ≠ [] := by simp [encodeFrame]
    rw [if_neg hne]
    rw [decodeStep_encodeFrame f _ acc last (hwf f (by simp))]
    show decodeLoop fuel
        ⟨encodeFrames fs,
          (acc ++ if (f.streamType : Int) ≠ last then markerFor f.streamType else []) ++
            f.payload,
          (f.streamType : Int)⟩ =
      some (Except.ok (acc ++ renderFrames last (f :: fs)))
    rw [ih fuel _ _ (fun g hg => hwf g (by simp [hg])) (by simp at hfuel; omega)]
    rw [renderFrames]
    simp [List.append_assoc]

theorem length_le_length_encodeFrames (fs : List Frame) :
    fs.length ≤ (encodeFrames fs).length := by
  induction fs with
  | nil => simp [encodeFrames]
  | cons f fs ih =>
    rw [encodeFrames_cons]
    simp only [List.length_cons, List.length_append]
    have : 1 ≤ (encodeFrame f).length := by simp [encodeFrame]
    omega

/-- C2: the log demultiplexer of `getContainerLogs` concatenates frame
payloads in order and inserts a `\n[stdout] `/`\n[stderr] ` marker exactly
at each stream-type transition (never per frame); in particular the wire
stream `[type=1,len=5,"abcde"][type=2,len=3,"xyz"][type=1,len=2,"hi"]`
decodes to `"\n[stdout] abcde\n[stderr] xyz\n[stdout] hi"`. -/
theorem getContainerLogs_demux_correct :
    (∀ fs : List Frame, (∀ f ∈ fs, WellFormedFrame f) →
      decodeLogs (encodeFrames fs) = some (.ok (renderFrames (-1) fs))) ∧
    decodeLogs
        ([1, 0, 0, 0, 0, 0, 0, 5] ++ [97, 98, 99, 100, 101] ++
          [2, 0, 0, 0, 0, 0, 0, 3] ++ [120, 121, 122] ++
          [1, 0, 0, 0, 0, 0, 0, 2] ++ [104, 105]) =
      some (.ok (stdoutMarker ++ [97, 98, 99, 100, 101] ++ stderrMarker ++
        [120, 121, 122] ++ stdoutMarker ++ [104, 105])) ∧
    bytesToString (stdoutMarker ++ [97, 98, 99, 100, 101] ++ stderrMarker ++
        [120, 121, 122] ++ stdoutMarker ++ [104, 105]) =
      "\n[stdout] abcde\n[stderr] xyz\n[stdout] hi" := by
  refine ⟨?_, by rfl, by rfl⟩
  intro fs hwf
  exact decodeLoop_encodeFrames fs ((encodeFrames fs).length + 1) [] (-1) hwf
    (by have := length_le_length_encodeFrames fs; omega)

/-- Witness for C2: the general demultiplexing theorem applied to the
specification's three-frame example. -/
theorem getContainerLogs_demux_correct_witness :
    decodeLogs (encodeFrames
        [⟨1, [97, 98, 99, 100, 101]⟩, ⟨2, [120, 121, 122]⟩, ⟨1, [104, 105]⟩]) =
      some (.ok (renderFrames (-1)
        [⟨1, [97, 98, 99, 100, 101]⟩, ⟨2, [120, 121, 122]⟩, ⟨1, [104, 105]⟩])) :=
  getContainerLogs_demux_correct.1
    [⟨1, [97, 98, 99, 100, 101]⟩, ⟨2, [120, 121, 122]⟩, ⟨1, [104, 105]⟩]
    (by decide)

theorem jsSubarray_head (b : List Nat) (hb : b ≠ []) :
    (jsSubarray b 0 8).getD 0 0 = b.getD 0 0 := by
  cases b with
  | nil => exact absurd rfl hb
  | cons x t =>
    have h0 : ((0 : Int)) = ((0 : Nat) : Int) := by norm_num
    have h8 : ((8 : Int)) = ((8 : Nat) : Int) := by norm_num
    rw [jsSubarray, h0, h8, jsIdx_ofNat, jsIdx_ofNat]
    obtain ⟨k, hk⟩ : ∃ k, min 8 (x :: t).length = k + 1 :=
      ⟨min 8 (x :: t).length - 1, by
        have hlen : (x :: t).length = t.length + 1 := rfl
        omega⟩
    rw [hk]
    simp

/-- C8: a frame whose stream-type byte is neither 1 nor 2 makes
`getContainerLogs` throw `Encountered unknown stream type`; the payload is
never silently dropped or appended under a marker. The invariant
`ValidLastType` holds initially and is preserved by every successful
iteration, so the transition check can never equal an invalid type byte and
skip it. -/
theorem getContainerLogs_unknown_stream_type_fails :
    (∀ body, ValidLastType (initState body)) ∧
    (∀ s s', ValidLastType s → decodeStep s = .ok s' → ValidLastType s') ∧
    (∀ (s : DecodeState) (fuel : Nat), ValidLastType s → s.leftBytes ≠ [] →
      s.leftBytes.getD 0 0 ≠ 1 → s.leftBytes.getD 0 0 ≠ 2 →
      decodeLoop (fuel + 1) s =
        some (.error ("Encountered unknown stream type: " ++
          toString ((s.leftBytes.getD 0 0 : Nat) : Int)))) := by
  refine ⟨fun body => Or.inl rfl, ?_, ?_⟩
  · intro s s' hv h
    simp only [decodeStep] at h
    split at h
    · split at h
      · cases h
        simp only [ValidLastType]
        tauto
      · split at h
        · cases h
          simp only [ValidLastType]
          tauto
        · exact absurd h (by simp)
    · cases h
      next hcond =>
        simp only [ne_eq, not_not] at hcond
        simpa only [ValidLastType, hcond] using hv
  · intro s fuel hv hne h1 h2
    have hhead := jsSubarray_head s.leftBytes hne
    have hn1 : ((s.leftBytes.getD 0 0 : Nat) : Int) ≠ 1 := by exact_mod_cast h1
    have hn2 : ((s.leftBytes.getD 0 0 : Nat) : Int) ≠ 2 := by exact_mod_cast h2
    have hlast : ((s.leftBytes.getD 0 0 : Nat) : Int) ≠ s.lastType := by
      rcases hv with h | h | h <;> rw [h] <;> omega
    have hstep : decodeStep s = .error ("Encountered unknown stream type: " ++
        toString ((s.leftBytes.getD 0 0 : Nat) : Int)) := by
      simp only [decodeStep, hhead]
      rw [if_pos hlast, if_neg hn1, if_neg hn2]
    rw [decodeLoop, if_neg hne, hstep]

/-- C10: the frame-decoding loop of `getContainerLogs` does NOT terminate
on every input. On `negativeSizeFrame` the computed frame size is
`-2^31`, so `leftBytes.subarray(8 + frameSize)` clamps its negative start
index to `0` and returns the whole buffer: after the first iteration the
loop state is a fixed point of `decodeStep`, the slice never shrinks, and
no amount of fuel finishes the loop (the JS `while` loop spins forever). -/
theorem getContainerLogs_loop_diverges_on_negative_frame_size :
    decodeStep ⟨negativeSizeFrame, stdoutMarker, 1⟩ =
      .ok ⟨negativeSizeFrame, stdoutMarker, 1⟩ ∧
    (∀ fuel, decodeLoop fuel (initState negativeSizeFrame) = none) ∧
    decodeLogs negativeSizeFrame = none := by
  have hfix : ∀ r, decodeStep ⟨negativeSizeFrame, r, 1⟩ = .ok ⟨negativeSizeFrame, r, 1⟩ := by
    have hT : (((jsSubarray negativeSizeFrame 0 8).getD 0 0 : Nat) : Int) = 1 := by decide
    have hP : jsSubarray negativeSizeFrame 8
        (8 + frameSizeOf (jsSubarray negativeSizeFrame 0 8)) = [] := by decide
    have hL : jsSubarray negativeSizeFrame
        (8 + frameSizeOf (jsSubarray negativeSizeFrame 0 8))
        (negativeSizeFrame.length : Int) = negativeSizeFrame := by decide
    intro r
    simp only [decodeStep, hT, hP, hL]
    norm_num
  have hloop : ∀ fuel r, decodeLoop fuel ⟨negativeSizeFrame, r, 1⟩ = none := by
    intro fuel
    induction fuel with
    | zero => intro r; simp [decodeLoop, negativeSizeFrame]
    | succ fuel ih =>
      intro r
      rw [decodeLoop, if_neg (by simp [negativeSizeFrame]), hfix r]
      exact ih r
  have hinit : ∀ fuel, decodeLoop fuel (initState negativeSizeFrame) = none := by
    intro fuel
    cases fuel with
    | zero => simp [decodeLoop, initState, negativeSizeFrame]
    | succ fuel =>
      rw [decodeLoop, if_neg (by simp [initState, negativeSizeFrame])]
      have hstep0 : decodeStep (initState negativeSizeFrame) =
          .ok ⟨negativeSizeFrame, stdoutMarker, 1⟩ := by
        rfl
      rw [hstep0]
      exact hloop fuel stdoutMarker
  exact ⟨hfix stdoutMarker, hinit, hinit _⟩

/-- C9: for a 200 log response, `getContainerLogs` rejects a declared
Content-Type other than `application/octet-stream`; when no Content-Type
header is present at all it proceeds to decode the body (the check only
fires on a present header), and the expected octet-stream type also
proceeds to decode. -/
theorem getContainerLogs_content_type_check (idOrName : String) (resp : LogsResponse)
    (hstatus : resp.statusCode = 200) :
    (∀ ct, resp.contentType = some ct → ct ≠ "application/octet-stream" →
      getContainerLogsOp idOrName resp =
        some (.error ("Unexpected Content-Type for container log stream: contentType=" ++
          ct ++ ", idOrName=" ++ idOrName))) ∧
    (resp.contentType = none →
      getContainerLogsOp idOrName resp = decodeLogs resp.body) ∧
    (resp.contentType = some "application/octet-stream" →
      getContainerLogsOp idOrName resp = decodeLogs resp.body) := by
  refine ⟨?_, ?_, ?_⟩
  · intro ct hct hne
    simp [getContainerLogsOp, hstatus, hct, hne]
  · intro hct
    simp [getContainerLogsOp, hstatus, hct]
  · intro hct
    simp [getContainerLogsOp, hstatus, hct]

/-- Witness for C9 at a concrete response: a present `text/plain`
content type is rejected with the modelled message, and an absent header
proceeds to decoding. -/
theorem getContainerLogs_content_type_check_witness :
    getContainerLogsOp "c1" ⟨200, some "text/plain", []⟩ =
      some (.error ("Unexpected Content-Type for container log stream: contentType=" ++
        "text/plain" ++ ", idOrName=" ++ "c1")) ∧
    getContainerLogsOp "c1" ⟨200, none, []⟩ = decodeLogs [] :=
  ⟨(getContainerLogs_content_type_check "c1" ⟨200, some "text/plain", []⟩ rfl).1
      "text/plain" rfl (by decide),
    (getContainerLogs_content_type_check "c1" ⟨200, none, []⟩ rfl).2.1 rfl⟩

/-- Witness for C8 at a concrete stream: a first frame with stream-type
byte 3 makes the loop throw. -/
theorem getContainerLogs_unknown_stream_type_fails_witness :
    decodeLoop 1 (initState [3, 0, 0, 0, 0, 0, 0, 0]) =
      some (.error ("Encountered unknown stream type: " ++ toString ((3 : Nat) : Int))) :=
  getContainerLogs_unknown_stream_type_fails.2.2
    (initState [3, 0, 0, 0, 0, 0, 0, 0]) 0 (Or.inl rfl) (by decide) (by decide) (by decide)

theorem strIncludes_append_right (pre mid : String) : strIncludes mid (pre ++ mid) :=
  ⟨pre.data, [], by simp [strIncludes, String.data_append]⟩

/-- C3 counterexample: `buildImage` on a status-500 response whose body is
`"boom"` throws `Unexpected status code 500`, which does not contain the
raw body text — refuting "every operation's contract-violation error
includes the raw response body". -/
theorem protocol_error_body_counterexample :
    buildImageValidate ⟨500, "boom", Json.null⟩ =
      .error "Unexpected status code 500" ∧
    ¬ strIncludes "boom" "Unexpected status code 500" := by
  exact ⟨rfl, by decide⟩

/-- C3 (amended): every validation error of `listContainers`,
`createContainer`, `startContainer`, `waitOnContainer`, `deleteContainer`,
`deleteStoppedContainers`, `getContainerLogs` (status check) and
`pullImage`, and the malformed-body error of `buildImage`, embeds the raw
response body text; the status-code errors of `buildImage` and `ping` are
the exceptions: they carry only the status code. -/
theorem protocol_errors_embed_raw_body :
    (∀ r : ApiResponse, r.statusCode ≠ 200 →
      ∃ e, listContainersValidate r = .error e ∧ strIncludes r.bodyText e) ∧
    (∀ r : ApiResponse, r.statusCode = 200 → r.bodyJson.isArray = false →
      ∃ e, listContainersValidate r = .error e ∧ strIncludes r.bodyText e) ∧
    (∀ r : ApiResponse, r.statusCode ≠ 200 →
      ∃ e, deleteContainerValidate r = .error e ∧ strIncludes r.bodyText e) ∧
    (∀ r : ApiResponse, r.statusCode = 200 → r.bodyJson.isArray = false →
      ∃ e, deleteContainerValidate r = .error e ∧ strIncludes r.bodyText e) ∧
    (∀ r : ApiResponse, r.statusCode ≠ 201 →
      ∃ e, createContainerValidate r = .error e ∧ strIncludes r.bodyText e) ∧
    (∀ r : ApiResponse, r.statusCode = 201 → r.bodyJson.strField "Id" = none →
      ∃ e, createContainerValidate r = .error e ∧ strIncludes r.bodyText e) ∧
    (∀ r : ApiResponse, r.statusCode ≠ 204 →
      ∃ e, startContainerValidate r = .error e ∧ strIncludes r.bodyText e) ∧
    (∀ r : ApiResponse, r.statusCode ≠ 200 →
      ∃ e, waitOnContainerValidate r = .error e ∧ strIncludes r.bodyText e) ∧
    (∀ r : ApiResponse, r.statusCode ≠ 200 →
      ∃ e, deleteStoppedContainersValidate r = .error e ∧ strIncludes r.bodyText e) ∧
    (∀ r : ApiResponse, r.statusCode = 200 → r.bodyJson.isArray = false →
      ∃ e, deleteStoppedContainersValidate r = .error e ∧ strIncludes r.bodyText e) ∧
    (∀ (idOrName : String) (resp : LogsResponse), resp.statusCode ≠ 200 →
      ∃ e, getContainerLogsOp idOrName resp = some (.error e) ∧
        strIncludes (bytesToString resp.body) e) ∧
    (∀ r : ApiResponse, r.statusCode ≠ 200 →
      ∃ e, pullImageValidate r = .error e ∧ strIncludes r.bodyText e) ∧
    (∀ r : ApiResponse, r.statusCode = 200 → r.bodyJson.strField "id" = none →
      ∃ e, pullImageValidate r = .error e ∧ strIncludes r.bodyText e) ∧
    (∀ r : ApiResponse, r.statusCode = 200 → r.bodyJson.strField "stream" = none →
      ∃ e, buildImageValidate r = .error e ∧ strIncludes r.bodyText e) ∧
    (∀ r : ApiResponse, r.statusCode ≠ 200 →
      buildImageValidate r = .error ("Unexpected status code " ++ toString r.statusCode)) ∧
    (∀ r : ApiResponse, r.statusCode ≠ 200 →
      pingValidate r = .error ("Unexpected status code " ++ toString r.statusCode)) := by
  refine ⟨?_, ?_, ?_, ?_, ?_, ?_, ?_, ?_, ?_, ?_, ?_, ?_, ?_, ?_, ?_, ?_⟩
  · intro r h
    exact ⟨_, by rw [listContainersValidate, if_pos h], strIncludes_append_right _ _⟩
  · intro r h harr
    cases hj : r.bodyJson
    case arr elems => rw [hj] at harr; simp [Json.isArray] at harr
    all_goals exact ⟨_, by rw [listContainersValidate, if_neg (by simp [h]), hj],
      strIncludes_append_right _ _⟩
  · intro r h
    exact ⟨_, by rw [deleteContainerValidate, if_pos h], strIncludes_append_right _ _⟩
  · intro r h harr
    cases hj : r.bodyJson
    case arr elems => rw [hj] at harr; simp [Json.isArray] at harr
    all_goals exact ⟨_, by rw [deleteContainerValidate, if_neg (by simp [h]), hj],
      strIncludes_append_right _ _⟩
  · intro r h
    exact ⟨_, by rw [createContainerValidate, if_pos h], strIncludes_append_right _ _⟩
  · intro r h hid
    exact ⟨_, by rw [createContainerValidate, if_neg (by simp [h]), hid],
      strIncludes_append_right _ _⟩
  · intro r h
    exact ⟨_, by rw [startContainerValidate, if_pos h], strIncludes_append_right _ _⟩
  · intro r h
    exact ⟨_, by rw [waitOnContainerValidate, if_pos h], strIncludes_append_right _ _⟩
  · intro r h
    exact ⟨_, by rw [deleteStoppedContainersValidate, if_pos h],
      strIncludes_append_right _ _⟩
  · intro r h harr
    cases hj : r.bodyJson
    case arr elems => rw [hj] at harr; simp [Json.isArray] at harr
    all_goals exact ⟨_, by rw [deleteStoppedContainersValidate, if_neg (by simp [h]), hj],
      strIncludes_append_right _ _⟩
  · intro idOrName resp h
    exact ⟨_, by rw [getContainerLogsOp, if_pos h], strIncludes_append_right _ _⟩
  · intro r h
    exact ⟨_, by rw [pullImageValidate, if_pos h], strIncludes_append_right _ _⟩
  · intro r h hid
    exact ⟨_, by rw [pullImageValidate, if_neg (by simp [h]), hid],
      strIncludes_append_right _ _⟩
  · intro r h hid
    exact ⟨_, by rw [buildImageValidate, if_neg (by simp [h]), hid],
      strIncludes_append_right _ _⟩
  · intro r h
    rw [buildImageValidate, if_pos h]
  · intro r h
    rw [pingValidate, if_pos h]

/-- Witness for the amended C3 at concrete responses: a 500
`listContainers` response with body `"raw body"` errors with the body
embedded, and a 404 `ping` response errors with only the status code. -/
theorem protocol_errors_embed_raw_body_witness :
    (∃ e, listContainersValidate ⟨500, "raw body", Json.null⟩ = .error e ∧
      strIncludes "raw body" e) ∧
    pingValidate ⟨404, "gone", Json.null⟩ =
      .error ("Unexpected status code " ++ toString (404 : Nat)) :=
  ⟨protocol_errors_embed_raw_body.1 ⟨500, "raw body", Json.null⟩ (by decide),
    protocol_errors_embed_raw_body.2.2.2.2.2.2.2.2.2.2.2.2.2.2.2
      ⟨404, "gone", Json.null⟩ (by decide)⟩

theorem filter_length_add_filterMap_length (versions : List String)
    (built : List (Option Bool)) (l : List Nat)
    (h : ∀ i ∈ l, i < versions.length) :
    (l.filter (fun i => built.getD i none = some true)).length +
      (l.filterMap (fun i =>
        if built.getD i none = some true then none else versions.get? i)).length =
      l.length := by
  induction l with
  | nil => simp
  | cons i l ih =>
    have hi := h i (by simp)
    have hrest : ∀ j ∈ l, j < versions.length := fun j hj => h j (by simp [hj])
    have hih := ih hrest
    rw [List.filter_cons, List.filterMap_cons]
    by_cases hb : built.getD i none = some true
    · rw [hb, if_pos (by decide), if_pos rfl]
      show (i :: List.filter _ l).length + (List.filterMap _ l).length = (i :: l).length
      rw [List.length_cons, List.length_cons]
      omega
    · obtain ⟨v, hv⟩ : ∃ v, versions.get? i = some v := by
        cases hg : versions.get? i with
        | none => rw [List.get?_eq_none] at hg; omega
        | some v => exact ⟨v, rfl⟩
      rw [if_neg (by simpa using hb), if_neg hb, hv]
      show (List.filter _ l).length + (v :: List.filterMap _ l).length = (i :: l).length
      rw [List.length_cons, List.length_cons]
      omega

/-- C4: the scheduler partition submits exactly the versions whose
tri-state "already built" mark is not strictly `true` (`false` and
undetermined both mean "needs building"), skips exactly those marked
`true` (logging their count), and on the specification's example
`["2.0","1.0","1.5"]` with marks `[false, true, undetermined]` the
to-build set is exactly `{"2.0","1.5"}`. -/
theorem scheduler_partition_correct :
    (∀ (versions : List String) (built : List (Option Bool)) (v : String),
      v ∈ toBuildVersions versions built ↔
        ∃ i, i < versions.length ∧ versions.get? i = some v ∧
          built.getD i none ≠ some true) ∧
    (∀ (versions : List String) (built : List (Option Bool)),
      skippedVersionCount versions built + (toBuildVersions versions built).length =
        versions.length) ∧
    (∀ v, v ∈ toBuildVersions ["2.0", "1.0", "1.5"] [some false, some true, none] ↔
      (v = "2.0" ∨ v = "1.5")) ∧
    skippedVersionCount ["2.0", "1.0", "1.5"] [some false, some true, none] = 1 := by
  refine ⟨?_, ?_, ?_, by decide⟩
  · intro versions built v
    simp only [toBuildVersions, List.mem_filterMap, List.mem_range]
    constructor
    · rintro ⟨i, hi, hf⟩
      by_cases hb : built.getD i none = some true
      · rw [if_pos hb] at hf; cases hf
      · rw [if_neg hb] at hf
        exact ⟨i, hi, hf, hb⟩
    · rintro ⟨i, hi, hget, hb⟩
      exact ⟨i, hi, by rw [if_neg hb]; exact hget⟩
  · intro versions built
    have h := filter_length_add_filterMap_length versions built
      (List.range versions.length) (fun i hi => List.mem_range.mp hi)
    rw [List.length_range] at h
    exact h
  · intro v
    have hlist : toBuildVersions ["2.0", "1.0", "1.5"] [some false, some true, none] =
        ["2.0", "1.5"] := by decide
    rw [hlist]
    simp

/-- Witness for C4: the membership characterisation applied to the
specification example, showing `"1.5"` is submitted because its mark is
undetermined. -/
theorem scheduler_partition_correct_witness :
    "1.5" ∈ toBuildVersions ["2.0", "1.0", "1.5"] [some false, some true, none] :=
  (scheduler_partition_correct.1 ["2.0", "1.0", "1.5"] [some false, some true, none]
    "1.5").mpr ⟨2, by decide, by decide, by decide⟩

theorem jsIndexOf_append_fresh (l : List String) (x : String) (hx : x ∉ l) :
    jsIndexOf (l ++ [x]) x = (l.length : Int) := by
  induction l with
  | nil => simp [jsIndexOf]
  | cons a t ih =>
    have hax : ¬ a = x := fun hax => hx (by simp [hax])
    have hxt : x ∉ t := fun hmem => hx (by simp [hmem])
    rw [List.cons_append, jsIndexOf]
    rw [if_neg hax, ih hxt, if_neg (by omega)]
    simp only [List.length_cons]
    push_cast
    ring

theorem eraseIdx_append_length (l : List String) (x : String) :
    (l ++ [x]).eraseIdx l.length = l := by
  induction l with
  | nil => rfl
  | cons a t ih => simp [List.eraseIdx, ih]

theorem jsSpliceIndexOf_append_fresh (l : List String) (x : String) (hx : x ∉ l) :
    jsSpliceIndexOf (l ++ [x]) x = l := by
  rw [jsSpliceIndexOf, jsIndexOf_append_fresh l x hx]
  rw [if_neg (by omega)]
  simp only [Int.toNat_natCast]
  exact eraseIdx_append_length l x

/-- C5: a build whose container exits 0 deletes the container with neither
the force nor the ignore-missing flag, removes its id from the running
list, and returns success. -/
theorem runBuild_success_path (b : EngineBehavior) (running : List String)
    (cid : String)
    (hcreate : b.createContainer = .ok cid)
    (hstart : b.startContainer = .ok ())
    (hwait : b.waitOnContainer = .ok 0)
    (hdelete : b.deleteContainer false false = .ok ())
    (hfresh : cid ∉ running) :
    (runBuilderInOwnContainer b running).outcome = .ok () ∧
    (runBuilderInOwnContainer b running).running = running ∧
    cid ∉ (runBuilderInOwnContainer b running).running ∧
    RunEvent.apiDeleteContainer cid false false ∈
      (runBuilderInOwnContainer b running).events ∧
    (∀ force ignore, RunEvent.apiDeleteContainer cid force ignore ∈
      (runBuilderInOwnContainer b running).events → force = false ∧ ignore = false) ∧
    RunEvent.removeRunning cid ∈ (runBuilderInOwnContainer b running).events := by
  have hafter : runAfterStart b (running ++ [cid]) cid =
      ⟨.ok (), jsSpliceIndexOf (running ++ [cid]) cid,
        [.apiWaitOnContainer cid, .apiDeleteContainer cid false false,
          .removeRunning cid]⟩ := by
    rw [runAfterStart, hwait]
    dsimp only
    rw [hdelete]
    norm_num
  have hrun : runBuilderInOwnContainer b running =
      ⟨.ok (), jsSpliceIndexOf (running ++ [cid]) cid,
        [.apiCreateContainer, .addRunning cid, .apiStartContainer cid,
          .apiWaitOnContainer cid, .apiDeleteContainer cid false false,
          .removeRunning cid]⟩ := by
    rw [runBuilderInOwnContainer, hcreate, hstart]
    dsimp only
    rw [hafter]
    rfl
  rw [hrun, jsSpliceIndexOf_append_fresh running cid hfresh]
  refine ⟨rfl, rfl, hfresh, by simp, ?_, by simp⟩
  intro force ignore hmem
  simp only [List.mem_cons, List.mem_singleton] at hmem
  rcases hmem with h | h | h | h | h | h | h <;> first
    | (cases h; exact ⟨rfl, rfl⟩)
    | (exact absurd h (by simp))

/-- Witness for C5: a concrete engine run with exit code 0. -/
theorem runBuild_success_path_witness :
    (runBuilderInOwnContainer
      ⟨.ok "c1", .ok (), .ok 0, .ok "", fun _ _ => .ok ()⟩ []).outcome = .ok () ∧
    "c1" ∉ (runBuilderInOwnContainer
      ⟨.ok "c1", .ok (), .ok 0, .ok "", fun _ _ => .ok ()⟩ []).running :=
  ⟨(runBuild_success_path _ [] "c1" rfl rfl rfl rfl (by simp)).1,
    (runBuild_success_path _ [] "c1" rfl rfl rfl rfl (by simp)).2.2.1⟩

/-- C1 counterexample: on a non-zero exit the orchestrator issues
`deleteContainer(id, force=false, ignore=true)` — NOT a forced delete —
and never removes the id from the running list (`splice` is only reached
on the success path); the raised error does embed the exit code. -/
theorem runBuild_failure_claim_counterexample :
    RunEvent.apiDeleteContainer "c1" true true ∉
      (runBuilderInOwnContainer exit7Behavior []).events ∧
    RunEvent.apiDeleteContainer "c1" true false ∉
      (runBuilderInOwnContainer exit7Behavior []).events ∧
    RunEvent.apiDeleteContainer "c1" false true ∈
      (runBuilderInOwnContainer exit7Behavior []).events ∧
    "c1" ∈ (runBuilderInOwnContainer exit7Behavior []).running ∧
    RunEvent.removeRunning "c1" ∉ (runBuilderInOwnContainer exit7Behavior []).events ∧
    (runBuilderInOwnContainer exit7Behavior []).outcome =
      .error "Container exited with exit code 7" :=
  ⟨by decide, by decide, by decide, by decide, by decide, rfl⟩

/-- C1 (amended): on a non-zero exit code the orchestrator fetches the
logs best-effort (suppressing a fetch error that contains
`no such container`, logging any other without failing the build),
truncates the capture to the last 250 lines, deletes the container with
the ignore-missing flag but WITHOUT the force flag, leaves the container's
id in the running list, and throws an error embedding the exit code and
the captured tail. -/
theorem runBuild_failure_path (b : EngineBehavior) (running : List String)
    (cid : String) (ec : Int)
    (hcreate : b.createContainer = .ok cid)
    (hstart : b.startContainer = .ok ())
    (hwait : b.waitOnContainer = .ok ec)
    (hec : ec ≠ 0)
    (hdelete : b.deleteContainer false true = .ok ()) :
    (runBuilderInOwnContainer b running).outcome =
      .error ("Container exited with exit code " ++ toString ec ++
        (if capturedLogTail b.getContainerLogs = "" then ""
         else ": " ++ capturedLogTail b.getContainerLogs)) ∧
    RunEvent.apiDeleteContainer cid false true ∈
      (runBuilderInOwnContainer b running).events ∧
    (∀ force ignore, RunEvent.apiDeleteContainer cid force ignore ∈
      (runBuilderInOwnContainer b running).events → force = false ∧ ignore = true) ∧
    (runBuilderInOwnContainer b running).running = running ++ [cid] ∧
    cid ∈ (runBuilderInOwnContainer b running).running ∧
    (∀ e, b.getContainerLogs = .error e → strIncludes "no such container" e →
      RunEvent.logSecondaryError e ∉ (runBuilderInOwnContainer b running).events) ∧
    (∀ e, b.getContainerLogs = .error e → ¬ strIncludes "no such container" e →
      RunEvent.logSecondaryError e ∈ (runBuilderInOwnContainer b running).events) ∧
    RunEvent.removeRunning cid ∉ (runBuilderInOwnContainer b running).events := by
  have hfetch : ∀ fetched : String × List RunEvent,
      (match b.getContainerLogs with
        | .ok logs => (lastLines 250 logs, [RunEvent.apiGetContainerLogs cid])
        | .error e =>
          if strIncludes "no such container" e then ("", [RunEvent.apiGetContainerLogs cid])
          else ("", [RunEvent.apiGetContainerLogs cid, RunEvent.logSecondaryError e])) =
        fetched →
      runBuilderInOwnContainer b running =
        ⟨.error ("Container exited with exit code " ++ toString ec ++
            (if fetched.1 = "" then "" else ": " ++ fetched.1)),
          running ++ [cid],
          [RunEvent.apiCreateContainer, RunEvent.addRunning cid,
            RunEvent.apiStartContainer cid, RunEvent.apiWaitOnContainer cid] ++
            fetched.2 ++ [RunEvent.apiDeleteContainer cid false true]⟩ := by
    intro fetched hf
    have hafter : runAfterStart b (running ++ [cid]) cid =
        ⟨.error ("Container exited with exit code " ++ toString ec ++
            (if fetched.1 = "" then "" else ": " ++ fetched.1)),
          running ++ [cid],
          RunEvent.apiWaitOnContainer cid :: fetched.2 ++
            [RunEvent.apiDeleteContainer cid false true]⟩ := by
      rw [runAfterStart, hwait]
      dsimp only
      rw [if_pos hec, hdelete, hf]
    rw [runBuilderInOwnContainer, hcreate, hstart]
    dsimp only
    rw [hafter]
    rfl
  rcases hlog : b.getContainerLogs with e | logs
  · by_cases hsup : strIncludes "no such container" e
    · have hrun := hfetch ("", [RunEvent.apiGetContainerLogs cid])
        (by rw [hlog]; dsimp only; rw [if_pos hsup])
      rw [hrun]
      refine ⟨by simp [capturedLogTail, hlog], by simp, ?_, rfl, by simp, ?_, ?_, by simp⟩
      · intro force ignore hmem
        simp only [List.cons_append, List.nil_append, List.mem_cons,
          List.mem_singleton] at hmem
        rcases hmem with h | h | h | h | h | h | h <;> first
          | (cases h; exact ⟨rfl, rfl⟩)
          | (exact absurd h (by simp))
      · intro e2 hlog2 _
        simp
      · intro e2 hlog2 hsup2
        cases hlog2
        exact absurd hsup hsup2
    · have hrun := hfetch ("", [RunEvent.apiGetContainerLogs cid,
          RunEvent.logSecondaryError e])
        (by rw [hlog]; dsimp only; rw [if_neg hsup])
      rw [hrun]
      refine ⟨by simp [capturedLogTail, hlog], by simp, ?_, rfl, by simp, ?_, ?_, by simp⟩
      · intro force ignore hmem
        simp only [List.cons_append, List.nil_append, List.mem_cons,
          List.mem_singleton] at hmem
        rcases hmem with h | h | h | h | h | h | h | h <;> first
          | (cases h; exact ⟨rfl, rfl⟩)
          | (exact absurd h (by simp))
      · intro e2 hlog2 hsup2
        cases hlog2
        exact absurd hsup2 hsup
      · intro e2 hlog2 _
        cases hlog2
        simp
  · have hrun := hfetch (lastLines 250 logs, [RunEvent.apiGetContainerLogs cid])
      (by rw [hlog])
    rw [hrun]
    refine ⟨by simp [capturedLogTail, hlog], by simp, ?_, rfl, by simp, ?_, ?_, by simp⟩
    · intro force ignore hmem
      simp only [List.cons_append, List.nil_append, List.mem_cons,
        List.mem_singleton] at hmem
      rcases hmem with h | h | h | h | h | h | h <;> first
        | (cases h; exact ⟨rfl, rfl⟩)
        | (exact absurd h (by simp))
    · intro e2 hlog2 _
      cases hlog2
    · intro e2 hlog2 _
      cases hlog2

/-- Witness for the amended C1: the concrete exit-code-7 behavior whose
log fetch fails with the engine's missing-container error. -/
theorem runBuild_failure_path_witness :
    (runBuilderInOwnContainer exit7Behavior []).outcome =
      .error ("Container exited with exit code " ++ toString (7 : Int) ++
        (if capturedLogTail exit7Behavior.getContainerLogs = "" then ""
         else ": " ++ capturedLogTail exit7Behavior.getContainerLogs)) ∧
    "c1" ∈ (runBuilderInOwnContainer exit7Behavior []).running :=
  ⟨(runBuild_failure_path exit7Behavior [] "c1" 7 rfl rfl rfl (by decide) rfl).1,
    (runBuild_failure_path exit7Behavior [] "c1" 7 rfl rfl rfl (by decide) rfl).2.2.2.2.1⟩

/-- C6: `abortRunningBuilders` with N ids in the running list issues
exactly N `deleteContainer` calls, each with both the force and the
ignore-missing flag, creates all N promises before awaiting any (the call
list never depends on the individual outcomes), and succeeds whenever each
deletion resolves — in particular under the engine's flag semantics it
does not fail merely because some containers no longer exist. -/
theorem abortAll_force_deletes_all
    (deleteResult : String → Bool → Bool → Except String Unit)
    (running : List String) :
    (abortRunningBuilders deleteResult running).1 =
      running.map (fun id => (id, true, true)) ∧
    (abortRunningBuilders deleteResult running).1.length = running.length ∧
    (∀ c ∈ (abortRunningBuilders deleteResult running).1,
      c.2.1 = true ∧ c.2.2 = true) ∧
    ((∀ id ∈ running, deleteResult id true true = .ok ()) →
      (abortRunningBuilders deleteResult running).2 = .ok ()) ∧
    (∀ missing : String → Bool,
      (abortRunningBuilders (engineDelete missing) running).2 = .ok ()) := by
  have hall : ∀ (d : String → Bool → Bool → Except String Unit) (l : List String),
      (∀ id ∈ l, d id true true = .ok ()) →
      (abortRunningBuilders d l).2 = .ok () := by
    intro d l
    induction l with
    | nil => intro _; rfl
    | cons id rest ih =>
      intro hl
      show List.foldr (fun id (acc : Except String Unit) =>
          match d id true true with
          | Except.error e => Except.error e
          | Except.ok _ => acc) (Except.ok ()) (id :: rest) = Except.ok ()
      rw [List.foldr_cons, hl id (by simp)]
      exact ih (fun j hj => hl j (by simp [hj]))
  refine ⟨rfl, by simp [abortRunningBuilders], ?_, hall deleteResult running, ?_⟩
  · intro c hc
    simp only [abortRunningBuilders, List.mem_map] at hc
    obtain ⟨id, _, rfl⟩ := hc
    exact ⟨rfl, rfl⟩
  · intro missing
    exact hall (engineDelete missing) running
      (fun id _ => by simp [engineDelete])

/-- Witness for C6: two running containers, both already gone, are
force-deleted without the abort failing. -/
theorem abortAll_force_deletes_all_witness :
    (abortRunningBuilders (engineDelete (fun _ => true)) ["a", "b"]).1 =
      [("a", true, true), ("b", true, true)] ∧
    (abortRunningBuilders (engineDelete (fun _ => true)) ["a", "b"]).2 = .ok () :=
  ⟨(abortAll_force_deletes_all (engineDelete (fun _ => true)) ["a", "b"]).1,
    (abortAll_force_deletes_all (engineDelete (fun _ => true)) ["a", "b"]).2.2.2.2
      (fun _ => true)⟩

theorem no_start_in_runAfterStart (b : EngineBehavior) (running1 : List String)
    (cid id : String) :
    RunEvent.apiStartContainer id ∉ (runAfterStart b running1 cid).events := by
  rw [runAfterStart]
  rcases b.waitOnContainer with e | ec
  · simp
  · dsimp only
    by_cases hec : ec ≠ 0
    · rw [if_pos hec]
      rcases b.getContainerLogs with e2 | logs
      · by_cases hsup : strIncludes "no such container" e2 <;>
          rcases b.deleteContainer false true with e3 | u <;>
          simp [hsup]
      · rcases b.deleteContainer false true with e3 | u <;> simp
    · rw [if_neg hec]
      rcases b.deleteContainer false false with e3 | u <;> simp

/-- C7: in every orchestrator run the container id is pushed onto the
running list strictly before `startContainer` is invoked: any position of
the event trace holding the start call is preceded by the
running-list-add event for the same id. -/
theorem running_set_add_before_start (b : EngineBehavior) (running : List String)
    (id : String) (m : Nat)
    (h : (runBuilderInOwnContainer b running).events.get? m =
      some (RunEvent.apiStartContainer id)) :
    ∃ k, k < m ∧ (runBuilderInOwnContainer b running).events.get? k =
      some (RunEvent.addRunning id) := by
  rcases hc : b.createContainer with e | cid
  · rw [runBuilderInOwnContainer, hc] at h ⊢
    dsimp only at h ⊢
    rcases m with _ | m
    · simp at h
    · simp at h
  · rcases hs : b.startContainer with e | u
    · rw [runBuilderInOwnContainer, hc, hs] at h ⊢
      dsimp only at h ⊢
      rcases m with _ | _ | _ | m
      · simp at h
      · simp at h
      · simp only [List.get?] at h
        cases h
        exact ⟨1, by omega, rfl⟩
      · simp at h
    · rw [runBuilderInOwnContainer, hc, hs] at h ⊢
      dsimp only at h ⊢
      rcases m with _ | _ | _ | m
      · simp at h
      · simp at h
      · simp only [List.get?] at h
        cases h
        exact ⟨1, by omega, rfl⟩
      · exfalso
        simp only [List.cons_append, List.nil_append, List.get?] at h
        exact no_start_in_runAfterStart b (running ++ [cid]) cid id (List.get?_mem h)

/-- Witness for C7: in the concrete exit-code-7 run the start call sits at
trace position 2 and the add event precedes it. -/
theorem running_set_add_before_start_witness :
    ∃ k, k < 2 ∧ (runBuilderInOwnContainer exit7Behavior []).events.get? k =
      some (RunEvent.addRunning "c1") :=
  running_set_add_before_start exit7Behavior [] "c1" 2 (by decide)

end MinecraftArtifactBuilder
